import Mathlib

/-!
Verification of the Orthonormal Basis Finder backend.

This file embeds the core of `Back End Python/backend.py` — the input
validator (`validate_vectors` on `VectorInput`), the Gram-Schmidt routine
(`gram_schmidt`), and the two endpoint handlers (`find_orthonormal_basis`,
`check_orthonormal`) — into Lean, and proves the specification's claims
about them.

Modelling choices:

* The Python code computes in IEEE double precision.  We model the
  arithmetic exactly over `ℚ`.  The only non-rational operation the code
  performs is `np.linalg.norm` (a square root) which is used (a) to
  normalize accepted Gram-Schmidt residuals and (b) in threshold
  comparisons.  Both are modelled without loss:

  - A basis vector `b = u / ‖u‖` is represented by the pair
    `(u, ‖u‖²) : List ℚ × ℚ` of its unnormalized residual and that
    residual's squared norm.  The projection update of the source,
    `v ← v − (v·b) b`, equals `v ← v − ((v·u)/‖u‖²) u`, which is rational.
    The theorem `gram_schmidt_R_eq_toPairs` below proves (over `ℝ`, against
    a verbatim transcription of the source that does divide by
    `Real.sqrt`) that this pair representation computes exactly the real
    Gram-Schmidt basis, each pair `(u, s)` denoting the vector `u / √s`.

  - A threshold comparison `‖v‖ < t` (with `t > 0`) is modelled as
    `‖v‖² < t²`, exactly equivalent over the reals; lemmas
    `norm_lt_tol_iff` and `unitViolation_iff` prove the equivalences used.

* Failures (pydantic `ValueError` → HTTP 400, and the explicit
  `HTTPException` for a degenerate input) are modelled with `Except`.

* The detail strings of `check_orthonormal` embed `%.6f`-formatted
  floating point values; we model each detail by its structured content
  (`Detail`): which vector fails the unit-norm check, which pair fails
  the orthogonality check, or the success message.  The order and count
  of details is modelled exactly.
-/

/-- Dot product of two coordinate lists, `np.dot`. -/
def dot {α : Type} [Mul α] [Add α] [Zero α] (v w : List α) : α :=
  (List.zipWith (· * ·) v w).sum

/-- Coordinatewise scalar multiple, `projection * orthonormal[j]`. -/
def smul {α : Type} [Mul α] (c : α) (v : List α) : List α :=
  v.map (fun x => c * x)

/-- Coordinatewise vector subtraction, `v - projection * orthonormal[j]`. -/
def vsub {α : Type} [Sub α] (v w : List α) : List α :=
  List.zipWith (· - ·) v w

/-- Coordinatewise division by a scalar, `v / norm`. -/
def vdiv {α : Type} [Div α] (v : List α) (c : α) : List α :=
  v.map (fun x => x / c)

/-- Squared Euclidean norm; `np.linalg.norm v` is `Real.sqrt (normSq v)`. -/
def normSq {α : Type} [Mul α] [Add α] [Zero α] (v : List α) : α :=
  dot v v

/-- The dependency-detection tolerance `1e-10` of `gram_schmidt`. -/
def tol : ℚ := 1 / 10 ^ 10

/-- Subtract from `v` its projection onto each accepted basis element in
insertion order (the inner `for j in range(len(orthonormal))` loop of
`gram_schmidt`).  A basis element is carried as the pair `(u, s)` with
`s = normSq u`, denoting the unit vector `u / √s`; the source's update
`v ← v − (v·(u/√s))·(u/√s)` equals `v ← v − ((v·u)/s)·u`. -/
def deflate (v : List ℚ) (basis : List (List ℚ × ℚ)) : List ℚ :=
  basis.foldl (fun r p => vsub r (smul (dot r p.1 / p.2) p.1)) v

/-- One iteration of the outer loop of `gram_schmidt`: deflate the current
vector against the accepted basis, skip it when its residual norm is below
`1e-10` (`normSq < tol²`), otherwise append the residual (paired with its
squared norm, denoting the normalized vector). -/
def gsStep (basis : List (List ℚ × ℚ)) (v : List ℚ) : List (List ℚ × ℚ) :=
  let r := deflate v basis
  if normSq r < tol ^ 2 then basis else basis ++ [(r, normSq r)]

/-- The `gram_schmidt` helper of the source, in the pair representation:
the returned list of pairs `(u, s)` denotes the orthonormal list
`[u / √s, ...]` (see `gram_schmidt_R_eq_toPairs`). -/
def gram_schmidt (vectors : List (List ℚ)) : List (List ℚ × ℚ) :=
  vectors.foldl gsStep []

/-- The `validate_vectors` pydantic validator of `VectorInput`: rejects an
empty vector list, vectors of differing lengths (message enumerating the
lengths), and any exactly-zero vector (message naming the first offending
index); otherwise returns the input unchanged. -/
def validate_vectors (v : List (List ℚ)) : Except String (List (List ℚ)) :=
  if v.isEmpty then .error "At least one vector is required"
  else if v.length = 0 then .error "Vectors list cannot be empty"
  else if ((v.map List.length).dedup.length > 1) then
    .error s!"All vectors must have same dimension. Found: {v.map List.length}"
  else
    match v.findIdx? (fun vec => vec.all (fun x => x == 0)) with
    | some i => .error s!"Vector at index {i} is a zero vector"
    | none => .ok v

/-- The failure modes surfaced by the `/orthonormal` endpoint: a pydantic
validation failure (HTTP 400 with the validator's message), and the
explicit degenerate-input `HTTPException` (HTTP 400). -/
inductive ApiError : Type
  | invalidInput (detail : String)
  | degenerateInput (detail : String)
deriving DecidableEq, Repr

/-- The `OrthonormalResponse` model.  `orthonormal_basis` is carried in the
pair representation: entry `(u, s)` denotes the unit vector `u / √s`. -/
structure OrthonormalResponse : Type where
  orthonormal_basis : List (List ℚ × ℚ)
  original_vectors : List (List ℚ)
  is_linearly_independent : Bool
  dimension : Nat
  number_of_vectors : Nat
  vector_size : Nat
  number_of_output_vectors : Nat
deriving DecidableEq, Repr

/-- The `/orthonormal` endpoint (`find_orthonormal_basis`): pydantic
validation of the request body, then Gram-Schmidt, then the degenerate
check `len(orthonormal) == 0`, then the response assembly. -/
def find_orthonormal_basis (vectors : List (List ℚ)) :
    Except ApiError OrthonormalResponse :=
  match validate_vectors vectors with
  | .error m => .error (.invalidInput m)
  | .ok vs =>
    let orthonormal := gram_schmidt vs
    let is_independent : Bool := orthonormal.length == vs.length
    if orthonormal.length = 0 then
      .error (.degenerateInput "All vectors are linearly dependent or zero vectors")
    else
      .ok { orthonormal_basis := orthonormal
            original_vectors := vs
            is_linearly_independent := is_independent
            dimension := orthonormal.length
            number_of_vectors := vs.length
            vector_size := (vs.headD []).length
            number_of_output_vectors := orthonormal.length }

instance {ε α : Type} [DecidableEq ε] [DecidableEq α] : DecidableEq (Except ε α)
  | .error a, .error b =>
    if h : a = b then .isTrue (by rw [h]) else .isFalse (by intro hh; cases hh; exact h rfl)
  | .error _, .ok _ => .isFalse (by intro h; cases h)
  | .ok _, .error _ => .isFalse (by intro h; cases h)
  | .ok a, .ok b =>
    if h : a = b then .isTrue (by rw [h]) else .isFalse (by intro hh; cases hh; exact h rfl)

/-! ### Basic lemmas about the vector operations -/

theorem dot_nil_left {α : Type} [Mul α] [Add α] [Zero α] (w : List α) :
    dot ([] : List α) w = 0 := rfl

theorem dot_nil_right {α : Type} [Mul α] [Add α] [Zero α] (v : List α) :
    dot v ([] : List α) = 0 := by
  simp [dot]

theorem dot_cons_cons {α : Type} [Mul α] [Add α] [Zero α] (a b : α) (v w : List α) :
    dot (a :: v) (b :: w) = a * b + dot v w := by
  simp [dot]

theorem normSq_nonneg (v : List ℚ) : 0 ≤ normSq v := by
  induction v with
  | nil => simp [normSq, dot_nil_left]
  | cons a v ih =>
    have h := mul_self_nonneg a
    calc (0 : ℚ) ≤ a * a + normSq v := by exact add_nonneg h ih
    _ = normSq (a :: v) := by simp only [normSq, dot_cons_cons]

theorem tol_sq_pos : 0 < tol ^ 2 := by
  have : (0 : ℚ) < tol := by rw [tol]; positivity
  positivity

/-- Each Gram-Schmidt iteration appends at most one basis element. -/
theorem gsStep_length_le (basis : List (List ℚ × ℚ)) (v : List ℚ) :
    (gsStep basis v).length ≤ basis.length + 1 := by
  rw [gsStep]
  split
  · omega
  · simp

/-- Each Gram-Schmidt iteration never drops accepted basis elements. -/
theorem le_gsStep_length (basis : List (List ℚ × ℚ)) (v : List ℚ) :
    basis.length ≤ (gsStep basis v).length := by
  rw [gsStep]
  split
  · omega
  · simp

theorem foldl_gsStep_length_le (l : List (List ℚ)) (basis : List (List ℚ × ℚ)) :
    (l.foldl gsStep basis).length ≤ basis.length + l.length := by
  induction l generalizing basis with
  | nil => simp
  | cons v rest ih =>
    calc (List.foldl gsStep (gsStep basis v) rest).length
        ≤ (gsStep basis v).length + rest.length := ih _
    _ ≤ (basis.length + 1) + rest.length := by
        have := gsStep_length_le basis v; omega
    _ = basis.length + (v :: rest).length := by simp; omega

theorem le_foldl_gsStep_length (l : List (List ℚ)) (basis : List (List ℚ × ℚ)) :
    basis.length ≤ (l.foldl gsStep basis).length := by
  induction l generalizing basis with
  | nil => simp
  | cons v rest ih =>
    calc basis.length ≤ (gsStep basis v).length := le_gsStep_length basis v
    _ ≤ (List.foldl gsStep (gsStep basis v) rest).length := ih _

theorem gram_schmidt_length_le (vs : List (List ℚ)) :
    (gram_schmidt vs).length ≤ vs.length := by
  have := foldl_gsStep_length_le vs []
  simpa [gram_schmidt] using this

/-- If the first input vector survives the tolerance test, the basis is
non-empty. -/
theorem gram_schmidt_ne_nil (v : List ℚ) (rest : List (List ℚ))
    (h : ¬ normSq v < tol ^ 2) : gram_schmidt (v :: rest) ≠ [] := by
  intro hnil
  have h1 : gsStep [] v = [(v, normSq v)] := by
    rw [gsStep]
    simp only [deflate, List.foldl_nil]
    rw [if_neg h]
    rfl
  have h2 : (1 : ℕ) ≤ (gram_schmidt (v :: rest)).length := by
    have := le_foldl_gsStep_length rest (gsStep [] v)
    rw [gram_schmidt, List.foldl_cons] at *
    rw [h1] at this ⊢
    simpa using this
  rw [hnil] at h2
  simp at h2

/-! ### Real-number semantics of `gram_schmidt`

`gram_schmidt_R` is a verbatim transcription of the source over `ℝ`
(`np.linalg.norm v` is `√(v·v)`); the correspondence theorem
`gram_schmidt_R_eq_toPairs` proves that the executable pair
representation `gram_schmidt` computes exactly the same basis, with the
pair `(u, s)` standing for the unit vector `u / √s`. -/

/-- Transcription over `ℝ` of the source's `gram_schmidt`: for each input
vector, subtract its projection onto every accepted orthonormal vector in
insertion order, compute the Euclidean norm of the residual, skip the
vector when the norm is below `1e-10`, otherwise append the residual
divided by its norm. -/
noncomputable def gram_schmidt_R (vectors : List (List ℝ)) : List (List ℝ) :=
  vectors.foldl
    (fun orthonormal v =>
      let r := orthonormal.foldl (fun w b => vsub w (smul (dot w b) b)) v
      let n := Real.sqrt (normSq r)
      if n < 1 / 10 ^ 10 then orthonormal else orthonormal ++ [vdiv r n])
    []

/-- Coordinatewise embedding of a rational vector into `ℝ`. -/
def castV (v : List ℚ) : List ℝ := v.map (fun x => (x : ℝ))

/-- The real vector denoted by a pair `(u, s)` of the executable
representation: `u / √s`. -/
noncomputable def normalizeR (p : List ℚ × ℚ) : List ℝ :=
  vdiv (castV p.1) (Real.sqrt ((p.2 : ℝ)))

theorem castV_vsub (v w : List ℚ) : castV (vsub v w) = vsub (castV v) (castV w) := by
  induction v generalizing w with
  | nil => simp [castV, vsub]
  | cons a v ih =>
    cases w with
    | nil => simp [castV, vsub]
    | cons b w => simp [castV, vsub] at ih ⊢; exact ih w

theorem castV_smul (c : ℚ) (v : List ℚ) :
    castV (smul c v) = smul ((c : ℝ)) (castV v) := by
  induction v with
  | nil => rfl
  | cons a v ih =>
    show ((c * a : ℚ) : ℝ) :: castV (smul c v) = ((c : ℝ) * (a : ℝ)) :: smul (c : ℝ) (castV v)
    rw [ih, Rat.cast_mul]

theorem cast_dot (v w : List ℚ) :
    ((dot v w : ℚ) : ℝ) = dot (castV v) (castV w) := by
  induction v generalizing w with
  | nil => simp [castV, dot_nil_left]
  | cons a v ih =>
    cases w with
    | nil => simp [castV, dot_nil_right]
    | cons b w =>
      show ((dot (a :: v) (b :: w) : ℚ) : ℝ) = dot ((a : ℝ) :: castV v) ((b : ℝ) :: castV w)
      rw [dot_cons_cons, dot_cons_cons, Rat.cast_add, Rat.cast_mul, ih w]

theorem dot_smul_right (v w : List ℝ) (c : ℝ) :
    dot v (smul c w) = c * dot v w := by
  induction v generalizing w with
  | nil => simp [dot_nil_left]
  | cons a v ih =>
    cases w with
    | nil => simp [smul, dot_nil_right]
    | cons b w =>
      show dot (a :: v) ((c * b) :: smul c w) = c * dot (a :: v) (b :: w)
      rw [dot_cons_cons, dot_cons_cons, ih w]
      ring

theorem smul_smul_list (a b : ℝ) (v : List ℝ) :
    smul a (smul b v) = smul (a * b) v := by
  simp [smul, List.map_map, Function.comp, mul_assoc]

theorem vdiv_eq_smul (v : List ℝ) (c : ℝ) : vdiv v c = smul c⁻¹ v := by
  simp [vdiv, smul, div_eq_inv_mul]

/-- One deflation step of the source, `v ← v − (v·b) b` against the unit
vector `b = u / √s`, equals the executable rational step
`v ← v − ((v·u)/s) u`. -/
theorem deflate_step_cast (v : List ℚ) (p : List ℚ × ℚ) (hp : 0 < p.2) :
    vsub (castV v) (smul (dot (castV v) (normalizeR p)) (normalizeR p))
      = castV (vsub v (smul (dot v p.1 / p.2) p.1)) := by
  have hs : (0 : ℝ) < (p.2 : ℝ) := by exact_mod_cast hp
  have h2 : Real.sqrt ((p.2 : ℝ)) * Real.sqrt ((p.2 : ℝ)) = (p.2 : ℝ) :=
    Real.mul_self_sqrt hs.le
  have ht0 : Real.sqrt ((p.2 : ℝ)) ≠ 0 := (Real.sqrt_pos.mpr hs).ne'
  rw [castV_vsub, castV_smul]
  rw [normalizeR, vdiv_eq_smul, dot_smul_right, smul_smul_list]
  congr 1
  rw [Rat.cast_div, cast_dot]
  set t := Real.sqrt ((p.2 : ℝ)) with ht
  rw [← h2]
  field_simp

/-- Deflating against the real orthonormal basis denoted by a pair list
equals the executable rational deflation. -/
theorem deflate_cast (b : List (List ℚ × ℚ)) (hb : ∀ p ∈ b, 0 < p.2) (v : List ℚ) :
    (b.map normalizeR).foldl (fun w q => vsub w (smul (dot w q) q)) (castV v)
      = castV (deflate v b) := by
  induction b generalizing v with
  | nil => simp [deflate]
  | cons p rest ih =>
    have hp : 0 < p.2 := hb p (by simp)
    have hrest : ∀ q ∈ rest, 0 < q.2 := fun q hq => hb q (by simp [hq])
    simp only [List.map_cons, List.foldl_cons, deflate] at *
    rw [deflate_step_cast v p hp]
    exact ih hrest _

theorem cast_normSq (v : List ℚ) :
    normSq (castV v) = ((normSq v : ℚ) : ℝ) := by
  rw [normSq, normSq, cast_dot]

/-- The source's tolerance test `np.linalg.norm v < 1e-10` is exactly the
executable test `‖v‖² < tol²`. -/
theorem norm_lt_tol_iff (q : ℚ) :
    Real.sqrt ((q : ℝ)) < 1 / 10 ^ 10 ↔ q < tol ^ 2 := by
  rw [Real.sqrt_lt' (by norm_num : (0:ℝ) < 1 / 10 ^ 10)]
  have h : ((tol ^ 2 : ℚ) : ℝ) = (1 / 10 ^ 10 : ℝ) ^ 2 := by
    rw [tol]; push_cast; norm_num
  rw [← h, Rat.cast_lt]

theorem gs_fold_cast (vs : List (List ℚ)) (b : List (List ℚ × ℚ))
    (hb : ∀ p ∈ b, 0 < p.2) :
    (vs.map castV).foldl
      (fun orthonormal v =>
        let r := orthonormal.foldl (fun w c => vsub w (smul (dot w c) c)) v
        let n := Real.sqrt (normSq r)
        if n < 1 / 10 ^ 10 then orthonormal else orthonormal ++ [vdiv r n])
      (b.map normalizeR)
      = (vs.foldl gsStep b).map normalizeR := by
  induction vs generalizing b with
  | nil => simp
  | cons v rest ih =>
    simp only [List.map_cons, List.foldl_cons]
    have hdef := deflate_cast b hb v
    have hns : normSq ((b.map normalizeR).foldl
        (fun w c => vsub w (smul (dot w c) c)) (castV v)) = ((normSq (deflate v b) : ℚ) : ℝ) := by
      rw [hdef, cast_normSq]
    by_cases hcond : normSq (deflate v b) < tol ^ 2
    · have hcr : Real.sqrt (normSq ((b.map normalizeR).foldl
          (fun w c => vsub w (smul (dot w c) c)) (castV v))) < 1 / 10 ^ 10 := by
        rw [hns, norm_lt_tol_iff]; exact hcond
      rw [if_pos hcr]
      have hq : gsStep b v = b := by
        simp only [gsStep]
        rw [if_pos hcond]
      rw [hq]
      exact ih b hb
    · have hcr : ¬ Real.sqrt (normSq ((b.map normalizeR).foldl
          (fun w c => vsub w (smul (dot w c) c)) (castV v))) < 1 / 10 ^ 10 := by
        rw [hns, norm_lt_tol_iff]; exact hcond
      rw [if_neg hcr]
      have hq : gsStep b v = b ++ [(deflate v b, normSq (deflate v b))] := by
        simp only [gsStep]
        rw [if_neg hcond]
      rw [hq]
      have hnew : ∀ p ∈ b ++ [(deflate v b, normSq (deflate v b))], 0 < p.2 := by
        intro p hp
        rcases List.mem_append.mp hp with h | h
        · exact hb p h
        · simp at h
          rw [h]
          exact lt_of_lt_of_le tol_sq_pos (not_lt.mp hcond)
      have ih2 := ih (b ++ [(deflate v b, normSq (deflate v b))]) hnew
      rw [← ih2, List.map_append]
      congr 1
      simp only [List.map_cons, List.map_nil, normalizeR]
      rw [hdef, cast_normSq]

/-- Running `gram_schmidt_R` on the real images of rational vectors computes
exactly the normalized vectors denoted by the executable pair
representation `gram_schmidt`. -/
theorem gram_schmidt_R_eq_toPairs (vs : List (List ℚ)) :
    gram_schmidt_R (vs.map castV) = (gram_schmidt vs).map normalizeR := by
  have h := gs_fold_cast vs [] (by simp)
  simpa [gram_schmidt_R, gram_schmidt] using h

/-- The Orthonormalizer exactly as the specification words it: maintain an
initially empty ordered `basis`; for each input vector in original order,
subtract from it its projection onto each vector already in `basis` in
insertion order; if the residual's Euclidean norm is below `1e-10`,
discard the vector; otherwise normalize the residual (divide by its norm)
and append it to `basis`. -/
noncomputable def specOrthonormalize (basis : List (List ℝ)) :
    List (List ℝ) → List (List ℝ)
  | [] => basis
  | v :: rest =>
    let r := basis.foldl (fun w b => vsub w (smul (dot w b) b)) v
    if Real.sqrt (normSq r) < 1 / 10 ^ 10 then specOrthonormalize basis rest
    else specOrthonormalize (basis ++ [vdiv r (Real.sqrt (normSq r))]) rest

theorem gram_schmidt_R_fold_eq_spec (vs : List (List ℝ)) :
    ∀ basis : List (List ℝ),
    vs.foldl
      (fun orthonormal v =>
        let r := orthonormal.foldl (fun w b => vsub w (smul (dot w b) b)) v
        let n := Real.sqrt (normSq r)
        if n < 1 / 10 ^ 10 then orthonormal else orthonormal ++ [vdiv r n])
      basis = specOrthonormalize basis vs := by
  induction vs with
  | nil => intro basis; rfl
  | cons v rest ih =>
    intro basis
    rw [List.foldl_cons, specOrthonormalize]
    simp only []
    by_cases h : Real.sqrt (normSq (basis.foldl (fun w b => vsub w (smul (dot w b) b)) v))
        < 1 / 10 ^ 10
    · rw [if_pos h, if_pos h, ih basis]
    · rw [if_neg h, if_neg h, ih _]

/-! ### The orthonormality checker -/

/-- Structured content of one entry of the `details` list of
`check_orthonormal`: the source's strings
`"Vector {i} is not unit length (norm = {norm:.6f})"`,
`"Vectors {i} and {j} are not orthogonal (dot product = {dot:.6f})"` and
`"All vectors form an orthonormal set!"`, with the `%.6f`-formatted
measured values abstracted away. -/
inductive Detail : Type
  | notUnit (i : Nat)
  | notOrthogonal (i j : Nat)
  | success
deriving DecidableEq, Repr

/-- The `CheckOrthonormalResponse` model. -/
structure CheckOrthonormalResponse : Type where
  is_orthonormal : Bool
  details : List Detail
  number_of_vectors : Nat
  vector_size : Nat
deriving DecidableEq, Repr

/-- The unit-length tolerance `1e-6` of `check_orthonormal`. -/
def epsCheck : ℚ := 1 / 10 ^ 6

/-- The source's unit-length test `abs(np.linalg.norm(v) - 1.0) > 1e-6`,
expressed on the squared norm: `|√s − 1| > 1e-6 ↔ s < (1−1e-6)² ∨
(1+1e-6)² < s` (proved as `unitViolation_iff`). -/
def unitViolation (v : List ℚ) : Bool :=
  decide (normSq v < (1 - epsCheck) ^ 2) || decide ((1 + epsCheck) ^ 2 < normSq v)

/-- The source's orthogonality test `abs(np.dot(v, w)) > 1e-6`. -/
def orthViolation (v w : List ℚ) : Bool :=
  decide (epsCheck < |dot v w|)

/-- The test `unitViolation` is exactly the source's test on the real Euclidean
norm. -/
theorem unitViolation_iff (v : List ℚ) :
    unitViolation v = true ↔ |Real.sqrt (normSq (castV v)) - 1| > 1 / 10 ^ 6 := by
  rw [cast_normSq]
  have hcast1 : (((1 - epsCheck) ^ 2 : ℚ) : ℝ) = (1 - 1 / 10 ^ 6 : ℝ) ^ 2 := by
    rw [epsCheck]; push_cast; norm_num
  have hcast2 : (((1 + epsCheck) ^ 2 : ℚ) : ℝ) = (1 + 1 / 10 ^ 6 : ℝ) ^ 2 := by
    rw [epsCheck]; push_cast; norm_num
  have h1 : Real.sqrt (((normSq v : ℚ) : ℝ)) < 1 - 1 / 10 ^ 6 ↔
      normSq v < (1 - epsCheck) ^ 2 := by
    rw [Real.sqrt_lt' (by norm_num : (0:ℝ) < 1 - 1 / 10 ^ 6), ← hcast1, Rat.cast_lt]
  have h2 : 1 + 1 / 10 ^ 6 < Real.sqrt (((normSq v : ℚ) : ℝ)) ↔
      (1 + epsCheck) ^ 2 < normSq v := by
    rw [Real.lt_sqrt (by norm_num : (0:ℝ) ≤ 1 + 1 / 10 ^ 6), ← hcast2, Rat.cast_lt]
  rw [gt_iff_lt, lt_abs]
  constructor
  · intro h
    rcases (by simpa [unitViolation] using h :
        normSq v < (1 - epsCheck) ^ 2 ∨ (1 + epsCheck) ^ 2 < normSq v) with hlt | hgt
    · right
      have := h1.mpr hlt
      linarith
    · left
      have := h2.mpr hgt
      linarith
  · intro h
    have hd : normSq v < (1 - epsCheck) ^ 2 ∨ (1 + epsCheck) ^ 2 < normSq v := by
      rcases h with h | h
      · right; exact h2.mp (by linarith)
      · left; exact h1.mp (by linarith)
    simpa [unitViolation] using hd

/-- The test `orthViolation` is exactly the source's test on the real dot
product. -/
theorem orthViolation_iff (v w : List ℚ) :
    orthViolation v w = true ↔ |dot (castV v) (castV w)| > 1 / 10 ^ 6 := by
  rw [orthViolation, ← cast_dot]
  have hcast : ((|dot v w| : ℚ) : ℝ) = |((dot v w : ℚ) : ℝ)| := by push_cast; rfl
  rw [← hcast]
  have he : ((epsCheck : ℚ) : ℝ) = 1 / 10 ^ 6 := by rw [epsCheck]; push_cast; norm_num
  rw [gt_iff_lt, ← he, Rat.cast_lt]
  simp

/-- The `/check-orthonormal` handler body: the two violation-recording
loops (unit length for each index, orthogonality for each pair `(i, j)`
with `i < j` in lexicographic order), the success-message replacement, and
the response assembly. -/
def check_orthonormal (vectors : List (List ℚ)) : CheckOrthonormalResponse :=
  let n := vectors.length
  let st1 := (List.range n).foldl
    (fun (st : Bool × List Detail) i =>
      if unitViolation (vectors.getD i []) then (false, st.2 ++ [Detail.notUnit i]) else st)
    (true, [])
  let st2 := (List.range n).foldl
    (fun (st : Bool × List Detail) i =>
      ((List.range n).drop (i + 1)).foldl
        (fun (st' : Bool × List Detail) j =>
          if orthViolation (vectors.getD i []) (vectors.getD j []) then
            (false, st'.2 ++ [Detail.notOrthogonal i j])
          else st')
        st)
    st1
  { is_orthonormal := st2.1
    details := if st2.1 then [Detail.success] else st2.2
    number_of_vectors := vectors.length
    vector_size := if 0 < vectors.length then (vectors.headD []).length else 0 }

/-- The `/check-orthonormal` endpoint: the request body is parsed as
`VectorInput`, so the pydantic `validate_vectors` validator runs before
the handler body. -/
def check_orthonormal_endpoint (vectors : List (List ℚ)) :
    Except String CheckOrthonormalResponse :=
  match validate_vectors vectors with
  | .error m => .error m
  | .ok vs => .ok (check_orthonormal vs)

/-- The unit-norm violations in index order, as the specification lists
them. -/
def normViolations (vectors : List (List ℚ)) : List Detail :=
  (List.range vectors.length).filterMap
    (fun i => if unitViolation (vectors.getD i []) then some (Detail.notUnit i) else none)

/-- The orthogonality violations in pair order
`(0,1),(0,2),...,(1,2),...`, as the specification lists them. -/
def orthViolations (vectors : List (List ℚ)) : List Detail :=
  ((List.range vectors.length).map
    (fun i => ((List.range vectors.length).drop (i + 1)).filterMap
      (fun j => if orthViolation (vectors.getD i []) (vectors.getD j []) then
          some (Detail.notOrthogonal i j) else none))).flatten

theorem isEmpty_append_eq {α : Type} (l l' : List α) :
    (l ++ l').isEmpty = (l.isEmpty && l'.isEmpty) := by
  cases l <;> simp

/-- A violation-recording loop (`is_orthonormal = False; details.append`)
accumulates exactly the filtered violation list, and clears the flag iff
some violation was found. -/
theorem foldl_record {α : Type} (p : ℕ → Bool) (g : ℕ → α) (l : List ℕ) :
    ∀ (b : Bool) (acc : List α),
    l.foldl (fun st i => if p i then (false, st.2 ++ [g i]) else st) (b, acc)
      = (b && (l.filterMap (fun i => if p i then some (g i) else none)).isEmpty,
         acc ++ l.filterMap (fun i => if p i then some (g i) else none)) := by
  induction l with
  | nil => intro b acc; simp
  | cons i rest ih =>
    intro b acc
    by_cases hp : p i = true
    · rw [List.foldl_cons]
      simp only [hp, if_true]
      rw [ih false (acc ++ [g i])]
      simp [hp, List.append_assoc]
    · rw [List.foldl_cons]
      simp only [hp, if_false, Bool.false_eq_true]
      rw [ih b acc]
      simp [hp]

/-- The nested pair loop accumulates the per-row violation lists in row
order. -/
theorem foldl_record_nested {α : Type} (q : ℕ → ℕ → Bool) (g : ℕ → ℕ → α)
    (J : ℕ → List ℕ) (l : List ℕ) :
    ∀ (b : Bool) (acc : List α),
    l.foldl (fun st i => (J i).foldl
        (fun st' j => if q i j then (false, st'.2 ++ [g i j]) else st') st) (b, acc)
      = (b && ((l.map (fun i => (J i).filterMap
            (fun j => if q i j then some (g i j) else none))).flatten).isEmpty,
         acc ++ (l.map (fun i => (J i).filterMap
            (fun j => if q i j then some (g i j) else none))).flatten) := by
  induction l with
  | nil => intro b acc; simp
  | cons i rest ih =>
    intro b acc
    rw [List.foldl_cons]
    rw [foldl_record (fun j => q i j) (fun j => g i j) (J i) b acc]
    rw [ih _ _]
    simp [isEmpty_append_eq, List.append_assoc, Bool.and_assoc]

/-- A list of naturals has at most one distinct value iff all its members
are equal. -/
theorem dedup_length_le_one_iff (l : List ℕ) :
    l.dedup.length ≤ 1 ↔ ∀ a ∈ l, ∀ b ∈ l, a = b := by
  constructor
  · intro h a ha b hb
    have ha' : a ∈ l.dedup := List.mem_dedup.mpr ha
    have hb' : b ∈ l.dedup := List.mem_dedup.mpr hb
    cases hd : l.dedup with
    | nil => rw [hd] at ha'; simp at ha'
    | cons x t =>
      rw [hd] at ha' hb' h
      have ht : t = [] := by
        simp at h
        exact h
      rw [ht] at ha' hb'
      simp at ha' hb'
      rw [ha', hb']
  · intro h
    by_contra hlen
    push_neg at hlen
    cases hd : l.dedup with
    | nil => rw [hd] at hlen; simp at hlen
    | cons x t =>
      cases ht : t with
      | nil => rw [hd, ht] at hlen; simp at hlen
      | cons y t2 =>
        have hnd := List.nodup_dedup l
        rw [hd, ht] at hnd
        have hxy : x ≠ y := by
          intro hxy
          rw [hxy] at hnd
          simp at hnd
        have hx : x ∈ l := List.mem_dedup.mp (by rw [hd]; simp)
        have hy : y ∈ l := List.mem_dedup.mp (by rw [hd, ht]; simp)
        exact hxy (h x hx y hy)

/-! ### Characterization of the validator -/

theorem sameLength_iff (v : List (List ℚ)) :
    (v.map List.length).dedup.length ≤ 1 ↔ ∀ a ∈ v, ∀ b ∈ v, a.length = b.length := by
  rw [dedup_length_le_one_iff]
  constructor
  · intro h a ha b hb
    exact h a.length (List.mem_map_of_mem _ ha) b.length (List.mem_map_of_mem _ hb)
  · intro h x hx y hy
    rcases List.mem_map.mp hx with ⟨a, ha, rfl⟩
    rcases List.mem_map.mp hy with ⟨b, hb, rfl⟩
    exact h a ha b hb

theorem zeroIdx_none_iff (v : List (List ℚ)) :
    v.findIdx? (fun vec => vec.all (fun x => x == 0)) = none ↔
      ∀ vec ∈ v, ¬ (∀ x ∈ vec, x = (0:ℚ)) := by
  rw [List.findIdx?_eq_none_iff]
  constructor
  · intro h vec hvec hall
    have hf := h vec hvec
    rw [List.all_eq_false] at hf
    rcases hf with ⟨x, hx, hx0⟩
    rw [beq_iff_eq] at hx0
    · exact absurd (hall x hx) (by simpa using hx0)
  · intro h vec hvec
    have hne := h vec hvec
    rw [Bool.eq_false_iff]
    intro hall
    rw [List.all_eq_true] at hall
    apply hne
    intro x hx
    have := hall x hx
    rwa [beq_iff_eq] at this

/-- The four branches of `validate_vectors`, with their exact messages. -/
theorem validate_vectors_cases (v : List (List ℚ)) :
    (v = [] → validate_vectors v = .error "At least one vector is required")
  ∧ (v ≠ [] → (v.map List.length).dedup.length > 1 →
      validate_vectors v = .error
        s!"All vectors must have same dimension. Found: {v.map List.length}")
  ∧ (∀ i, v ≠ [] → (v.map List.length).dedup.length ≤ 1 →
      v.findIdx? (fun vec => vec.all (fun x => x == 0)) = some i →
      validate_vectors v = .error s!"Vector at index {i} is a zero vector")
  ∧ (v ≠ [] → (v.map List.length).dedup.length ≤ 1 →
      v.findIdx? (fun vec => vec.all (fun x => x == 0)) = none →
      validate_vectors v = .ok v) := by
  refine ⟨?_, ?_, ?_, ?_⟩
  · intro hv
    rw [validate_vectors, if_pos (List.isEmpty_iff.mpr hv)]
  · intro hv hlen
    have h1 : ¬ (v.isEmpty = true) := by
      rw [List.isEmpty_iff]; exact hv
    have h2 : ¬ (v.length = 0) := by
      intro hz; exact hv (List.length_eq_zero.mp hz)
    rw [validate_vectors, if_neg h1, if_neg h2, if_pos hlen]
  · intro i hv hlen hidx
    have h1 : ¬ (v.isEmpty = true) := by
      rw [List.isEmpty_iff]; exact hv
    have h2 : ¬ (v.length = 0) := by
      intro hz; exact hv (List.length_eq_zero.mp hz)
    have h3 : ¬ ((v.map List.length).dedup.length > 1) := by omega
    rw [validate_vectors, if_neg h1, if_neg h2, if_neg h3, hidx]
  · intro hv hlen hidx
    have h1 : ¬ (v.isEmpty = true) := by
      rw [List.isEmpty_iff]; exact hv
    have h2 : ¬ (v.length = 0) := by
      intro hz; exact hv (List.length_eq_zero.mp hz)
    have h3 : ¬ ((v.map List.length).dedup.length > 1) := by omega
    rw [validate_vectors, if_neg h1, if_neg h2, if_neg h3, hidx]

/-- Validation succeeds exactly on non-empty equal-length lists
with no all-zero vector, and then returns the input unchanged. -/
theorem validate_vectors_ok_iff (v w : List (List ℚ)) :
    validate_vectors v = .ok w ↔
      (w = v ∧ v ≠ [] ∧ (v.map List.length).dedup.length ≤ 1 ∧
       v.findIdx? (fun vec => vec.all (fun x => x == 0)) = none) := by
  obtain ⟨c1, c2, c3, c4⟩ := validate_vectors_cases v
  constructor
  · intro h
    by_cases hv : v = []
    · rw [c1 hv] at h; cases h
    · by_cases hlen : (v.map List.length).dedup.length > 1
      · rw [c2 hv hlen] at h; cases h
      · have hlen' : (v.map List.length).dedup.length ≤ 1 := by omega
        cases hidx : v.findIdx? (fun vec => vec.all (fun x => x == 0)) with
        | some i => rw [c3 i hv hlen' hidx] at h; cases h
        | none =>
          rw [c4 hv hlen' hidx] at h
          injection h with h
          exact ⟨h.symm, hv, hlen', rfl⟩
  · rintro ⟨rfl, hv, hlen, hidx⟩
    exact c4 hv hlen hidx

/-! ### Unfolding lemmas for the `/orthonormal` endpoint -/

theorem find_eq_of_validate_error (vs : List (List ℚ)) (m : String)
    (h : validate_vectors vs = .error m) :
    find_orthonormal_basis vs = .error (.invalidInput m) := by
  rw [find_orthonormal_basis, h]

theorem find_eq_of_validate_ok (vs : List (List ℚ))
    (h : validate_vectors vs = .ok vs) :
    find_orthonormal_basis vs =
      (if (gram_schmidt vs).length = 0 then
        .error (.degenerateInput "All vectors are linearly dependent or zero vectors")
      else
        .ok { orthonormal_basis := gram_schmidt vs
              original_vectors := vs
              is_linearly_independent := (gram_schmidt vs).length == vs.length
              dimension := (gram_schmidt vs).length
              number_of_vectors := vs.length
              vector_size := (vs.headD []).length
              number_of_output_vectors := (gram_schmidt vs).length }) := by
  rw [find_orthonormal_basis, h]

/-- Inversion: a successful `/orthonormal` response comes from a validated
input and carries the Gram-Schmidt result. -/
theorem find_ok_inv (vs : List (List ℚ)) (r : OrthonormalResponse)
    (h : find_orthonormal_basis vs = .ok r) :
    validate_vectors vs = .ok vs ∧
    r = { orthonormal_basis := gram_schmidt vs
          original_vectors := vs
          is_linearly_independent := (gram_schmidt vs).length == vs.length
          dimension := (gram_schmidt vs).length
          number_of_vectors := vs.length
          vector_size := (vs.headD []).length
          number_of_output_vectors := (gram_schmidt vs).length } ∧
    (gram_schmidt vs).length ≠ 0 := by
  cases hval : validate_vectors vs with
  | error m =>
    rw [find_eq_of_validate_error vs m hval] at h
    cases h
  | ok w =>
    have hw : w = vs := ((validate_vectors_ok_iff vs w).mp hval).1
    subst hw
    rw [find_eq_of_validate_ok w hval] at h
    by_cases hlen : (gram_schmidt w).length = 0
    · rw [if_pos hlen] at h; cases h
    · rw [if_neg hlen] at h
      injection h with h
      exact ⟨rfl, h.symm, hlen⟩

/-! ### The claims -/

/-- Claim C1 (counterexample): the claim says `ComputeBasis` on
`[[1,1,0],[2,2,0]]` fails with `DegenerateInput` and returns no basis; in
fact the computation succeeds (the first vector survives, only the second
deflates). -/
theorem claim1_counterexample :
    (find_orthonormal_basis [[1,1,0],[2,2,0]]).isOk = true := by
  with_unfolding_all decide

set_option maxRecDepth 2000 in
/-- Claim C1 (amended): on `[[1,1,0],[2,2,0]]` `ComputeBasis` succeeds:
the second vector fully deflates and is discarded, the basis contains
exactly the normalized first vector (the pair `([1,1,0], 2)` denotes
`[1,1,0]/√2`), and `isIndependent = false`. -/
theorem claim1_amended :
    find_orthonormal_basis [[1,1,0],[2,2,0]] =
      .ok { orthonormal_basis := [([1,1,0], 2)]
            original_vectors := [[1,1,0],[2,2,0]]
            is_linearly_independent := false
            dimension := 1
            number_of_vectors := 2
            vector_size := 3
            number_of_output_vectors := 1 } := by
  with_unfolding_all decide

set_option maxRecDepth 2000 in
/-- Claim C2 (counterexample): a single nonzero vector of norm `1e-11`
passes validation, yet `ComputeBasis` fails with `DegenerateInput`: the
empty-basis outcome is reachable without bypassing validation. -/
theorem claim2_counterexample :
    validate_vectors [[1/10^11]] = .ok [[1/10^11]] ∧
    find_orthonormal_basis [[1/10^11]] =
      .error (.degenerateInput "All vectors are linearly dependent or zero vectors") := by
  have hval : validate_vectors [[1/10^11]] = .ok [[1/10^11]] :=
    (validate_vectors_cases [[1/10^11]]).2.2.2 (by simp)
      (by with_unfolding_all decide) (by with_unfolding_all decide)
  refine ⟨hval, ?_⟩
  rw [find_eq_of_validate_ok _ hval]
  have hgs : gram_schmidt [[1/10^11]] = [] := by
    rw [gram_schmidt, List.foldl_cons, List.foldl_nil]
    simp only [gsStep, deflate, List.foldl_nil]
    rw [if_pos (by with_unfolding_all decide : normSq [1/10^11] < tol ^ 2)]
  rw [hgs]
  rfl

/-- Claim C2 (amended): for every input passing validation whose FIRST
vector has Euclidean norm at least `1e-10`, `ComputeBasis` never fails
with `DegenerateInput` (the basis is non-empty, so the computation
succeeds).  Validation alone does not guarantee this: a nonzero vector
with norm below `1e-10` passes validation and still deflates. -/
theorem claim2_amended (vs w : List (List ℚ)) (hok : validate_vectors vs = .ok w)
    (hfirst : ¬ normSq (vs.headD []) < tol ^ 2) :
    (find_orthonormal_basis vs).isOk = true := by
  obtain ⟨hw, hv, -, -⟩ := (validate_vectors_ok_iff vs w).mp hok
  subst hw
  obtain ⟨v, rest, rfl⟩ := List.exists_cons_of_ne_nil hv
  have hne := gram_schmidt_ne_nil v rest (by simpa using hfirst)
  rw [find_eq_of_validate_ok _ hok]
  rw [if_neg (fun h0 => hne (List.length_eq_zero.mp h0))]
  rfl

theorem claim2_witness :
    validate_vectors [[1,0],[1,1]] = .ok [[1,0],[1,1]] ∧
    ¬ normSq (([[1,0],[1,1]] : List (List ℚ)).headD []) < tol ^ 2 ∧
    (find_orthonormal_basis [[1,0],[1,1]]).isOk = true :=
  ⟨by with_unfolding_all decide, by with_unfolding_all decide,
   claim2_amended [[1,0],[1,1]] [[1,0],[1,1]]
     (by with_unfolding_all decide) (by with_unfolding_all decide)⟩

/-- Claim C3: the `/check-orthonormal` endpoint does NOT accept arbitrary
numeric vectors: its request body is a `VectorInput`, whose validator
rejects the all-zero vector `[0,0]` before the checker runs — although the
handler body itself, had it been reached, would have produced a report for
that input. -/
theorem claim3_endpoint_rejects_zero_vector :
    check_orthonormal_endpoint [[0,0]] = .error "Vector at index 0 is a zero vector" ∧
    check_orthonormal [[0,0]] =
      { is_orthonormal := false
        details := [Detail.notUnit 0]
        number_of_vectors := 1
        vector_size := 2 } := by
  constructor
  · with_unfolding_all decide
  · with_unfolding_all decide

/-- Claim C4: `validate_vectors` fails exactly when the list is empty,
when vector lengths differ (with the message enumerating the lengths), or
when some vector is exactly all-zero (with the message naming the first
offending index); otherwise it returns the input unchanged. -/
theorem claim4_validator_contract (v : List (List ℚ)) :
    ((∃ w, validate_vectors v = .ok w) ↔
      (v ≠ [] ∧ (∀ a ∈ v, ∀ b ∈ v, a.length = b.length) ∧
        ∀ vec ∈ v, ¬ (∀ x ∈ vec, x = (0:ℚ))))
  ∧ (∀ w, validate_vectors v = .ok w → w = v)
  ∧ (v = [] → validate_vectors v = .error "At least one vector is required")
  ∧ ((∃ a ∈ v, ∃ b ∈ v, a.length ≠ b.length) →
      validate_vectors v = .error
        s!"All vectors must have same dimension. Found: {v.map List.length}")
  ∧ (∀ i, (∀ a ∈ v, ∀ b ∈ v, a.length = b.length) →
      v.findIdx? (fun vec => vec.all (fun x => x == 0)) = some i →
      validate_vectors v = .error s!"Vector at index {i} is a zero vector") := by
  refine ⟨⟨?_, ?_⟩, ?_, ?_, ?_, ?_⟩
  · rintro ⟨w, hw⟩
    obtain ⟨-, hv, hlen, hidx⟩ := (validate_vectors_ok_iff v w).mp hw
    exact ⟨hv, (sameLength_iff v).mp hlen, (zeroIdx_none_iff v).mp hidx⟩
  · rintro ⟨hv, hlen, hzero⟩
    exact ⟨v, (validate_vectors_ok_iff v v).mpr
      ⟨rfl, hv, (sameLength_iff v).mpr hlen, (zeroIdx_none_iff v).mpr hzero⟩⟩
  · intro w hw
    exact ((validate_vectors_ok_iff v w).mp hw).1
  · exact (validate_vectors_cases v).1
  · rintro ⟨a, ha, b, hb, hab⟩
    have hv : v ≠ [] := by
      intro h
      subst h
      simp at ha
    have hgt : (v.map List.length).dedup.length > 1 := by
      by_contra hle
      push_neg at hle
      exact hab ((sameLength_iff v).mp hle a ha b hb)
    exact (validate_vectors_cases v).2.1 hv hgt
  · intro i hlen hidx
    have hv : v ≠ [] := by
      intro h
      subst h
      simp at hidx
    exact (validate_vectors_cases v).2.2.1 i hv ((sameLength_iff v).mpr hlen) hidx

theorem claim4_witness :
    validate_vectors [[1,0],[0,0]] = .error "Vector at index 1 is a zero vector" :=
  (claim4_validator_contract [[1,0],[0,0]]).2.2.2.2 1
    (by with_unfolding_all decide) (by with_unfolding_all decide)

/-- Claim C5: `gram_schmidt` implements classical sequential Gram-Schmidt.
First conjunct: the source transcription `gram_schmidt_R` equals the
specification's recursion `specOrthonormalize` (projection subtraction
against each accepted basis vector in insertion order, discard below the
`1e-10` tolerance, otherwise normalize and append).  Second conjunct: the
executable pair representation `gram_schmidt` computes exactly that
algorithm (the pair `(u, s)` denoting `u / √s`). -/
theorem claim5_classical_gram_schmidt :
    (∀ vs : List (List ℝ), gram_schmidt_R vs = specOrthonormalize [] vs)
  ∧ (∀ vs : List (List ℚ),
      gram_schmidt_R (vs.map castV) = (gram_schmidt vs).map normalizeR) := by
  constructor
  · intro vs
    rw [gram_schmidt_R]
    exact gram_schmidt_R_fold_eq_spec vs []
  · exact gram_schmidt_R_eq_toPairs

/-- Claim C6: on success the basis has at most as many vectors as the
input, and the independence flag is set iff the basis is full. -/
theorem claim6_basis_length (vs : List (List ℚ)) (r : OrthonormalResponse)
    (h : find_orthonormal_basis vs = .ok r) :
    r.orthonormal_basis.length ≤ vs.length ∧
    (r.is_linearly_independent = true ↔ r.orthonormal_basis.length = vs.length) := by
  obtain ⟨-, hrec, -⟩ := find_ok_inv vs r h
  subst hrec
  refine ⟨gram_schmidt_length_le vs, ?_⟩
  simp [beq_iff_eq]

theorem claim6_witness :
    ([([1,0],(1:ℚ)),([0,1],(1:ℚ))] : List (List ℚ × ℚ)).length ≤ 2 ∧
    ((true : Bool) = true ↔
      ([([1,0],(1:ℚ)),([0,1],(1:ℚ))] : List (List ℚ × ℚ)).length = 2) :=
  claim6_basis_length [[1,0],[0,1]]
    { orthonormal_basis := [([1,0],1),([0,1],1)]
      original_vectors := [[1,0],[0,1]]
      is_linearly_independent := true
      dimension := 2
      number_of_vectors := 2
      vector_size := 2
      number_of_output_vectors := 2 }
    (by with_unfolding_all decide)

/-- Claim C7: `ComputeBasis` is all-or-nothing.  Validation failures
short-circuit to an `InvalidInput` error carrying no data; a fully
deflated (empty) Gram-Schmidt result yields a `DegenerateInput` error
rather than an empty basis; and every successful response carries a
non-empty basis. -/
theorem claim7_all_or_nothing (vs : List (List ℚ)) :
    (∀ m, validate_vectors vs = .error m →
        find_orthonormal_basis vs = .error (.invalidInput m))
  ∧ ((validate_vectors vs).isOk = true → gram_schmidt vs = [] →
        find_orthonormal_basis vs =
          .error (.degenerateInput "All vectors are linearly dependent or zero vectors"))
  ∧ (∀ r, find_orthonormal_basis vs = .ok r → r.orthonormal_basis ≠ []) := by
  refine ⟨?_, ?_, ?_⟩
  · intro m hm
    exact find_eq_of_validate_error vs m hm
  · intro hok hgs
    cases hval : validate_vectors vs with
    | error m => rw [hval] at hok; simp [Except.isOk, Except.toBool] at hok
    | ok w =>
      have hw : w = vs := ((validate_vectors_ok_iff vs w).mp hval).1
      subst hw
      rw [find_eq_of_validate_ok w hval, hgs]
      rfl
  · intro r hr
    obtain ⟨-, hrec, hlen⟩ := find_ok_inv vs r hr
    subst hrec
    intro hcontr
    have hgs : gram_schmidt vs = [] := hcontr
    exact hlen (by rw [hgs]; rfl)

theorem claim7_witness :
    find_orthonormal_basis [[0,0,0]] =
      .error (.invalidInput "Vector at index 0 is a zero vector") :=
  (claim7_all_or_nothing [[0,0,0]]).1 "Vector at index 0 is a zero vector"
    (by with_unfolding_all decide)

/-- Claim C8: the report's details are exactly the unit-norm violations in
index order followed by the orthogonality violations in pair order, with a
single success message replacing an empty violation list, and
`is_orthonormal` holds iff no violation was recorded. -/
theorem claim8_check_report (vectors : List (List ℚ)) :
    ((check_orthonormal vectors).is_orthonormal = true ↔
      normViolations vectors ++ orthViolations vectors = [])
  ∧ (check_orthonormal vectors).details =
      (if normViolations vectors ++ orthViolations vectors = []
       then [Detail.success]
       else normViolations vectors ++ orthViolations vectors) := by
  have h1 := foldl_record (fun i => unitViolation (vectors.getD i []))
      (fun i => Detail.notUnit i) (List.range vectors.length) true []
  have h2 := foldl_record_nested
      (fun i j => orthViolation (vectors.getD i []) (vectors.getD j []))
      (fun i j => Detail.notOrthogonal i j)
      (fun i => (List.range vectors.length).drop (i + 1))
      (List.range vectors.length)
  simp only [check_orthonormal, normViolations, orthViolations]
  rw [h1, h2]
  constructor
  · simp [Bool.and_eq_true, List.isEmpty_iff, List.append_eq_nil]
  · by_cases hA : ((List.range vectors.length).filterMap fun i =>
        if unitViolation (vectors.getD i []) then some (Detail.notUnit i) else none) = []
      <;> by_cases hB : (((List.range vectors.length).map fun i =>
        ((List.range vectors.length).drop (i + 1)).filterMap fun j =>
          if orthViolation (vectors.getD i []) (vectors.getD j []) then
            some (Detail.notOrthogonal i j) else none).flatten) = []
      <;> simp [hA, hB, List.isEmpty_iff]

theorem claim8_witness :
    ((check_orthonormal [[1,0],[1,0]]).is_orthonormal = true ↔
      normViolations [[1,0],[1,0]] ++ orthViolations [[1,0],[1,0]] = [])
  ∧ (check_orthonormal [[1,0],[1,0]]).details =
      (if normViolations [[1,0],[1,0]] ++ orthViolations [[1,0],[1,0]] = []
       then [Detail.success]
       else normViolations [[1,0],[1,0]] ++ orthViolations [[1,0],[1,0]]) :=
  claim8_check_report [[1,0],[1,0]]

/-- Claim C9: `ComputeBasis` is deterministic: two runs on the same input
produce the same outcome, and in particular identical basis, flags and
counts. -/
theorem claim9_deterministic (vs : List (List ℚ))
    (r₁ r₂ : Except ApiError OrthonormalResponse)
    (h₁ : find_orthonormal_basis vs = r₁) (h₂ : find_orthonormal_basis vs = r₂) :
    r₁ = r₂ ∧ ∀ a b, r₁ = .ok a → r₂ = .ok b →
      a.orthonormal_basis = b.orthonormal_basis ∧
      a.original_vectors = b.original_vectors ∧
      a.is_linearly_independent = b.is_linearly_independent ∧
      a.dimension = b.dimension ∧
      a.number_of_vectors = b.number_of_vectors ∧
      a.vector_size = b.vector_size ∧
      a.number_of_output_vectors = b.number_of_output_vectors := by
  subst h₁
  subst h₂
  refine ⟨rfl, ?_⟩
  intro a b ha hb
  rw [ha] at hb
  injection hb with hab
  subst hab
  exact ⟨rfl, rfl, rfl, rfl, rfl, rfl, rfl⟩

theorem claim9_witness :
    (Except.ok { orthonormal_basis := [([3,4],25)]
                 original_vectors := [[3,4]]
                 is_linearly_independent := true
                 dimension := 1
                 number_of_vectors := 1
                 vector_size := 2
                 number_of_output_vectors := 1 } :
      Except ApiError OrthonormalResponse) =
    Except.ok { orthonormal_basis := [([3,4],25)]
                original_vectors := [[3,4]]
                is_linearly_independent := true
                dimension := 1
                number_of_vectors := 1
                vector_size := 2
                number_of_output_vectors := 1 } :=
  (claim9_deterministic [[3,4]] _ _
    (by with_unfolding_all decide) (by with_unfolding_all decide)).1

/-- Claim C10: in every successful response, `dimension` equals
`number_of_output_vectors`, both equal the computed basis length, and
`original_vectors` is the input unchanged. -/
theorem claim10_response_fields (vs : List (List ℚ)) (r : OrthonormalResponse)
    (h : find_orthonormal_basis vs = .ok r) :
    r.dimension = r.number_of_output_vectors ∧
    r.dimension = r.orthonormal_basis.length ∧
    r.original_vectors = vs := by
  obtain ⟨-, hrec, -⟩ := find_ok_inv vs r h
  subst hrec
  exact ⟨rfl, rfl, rfl⟩

theorem claim10_witness :
    (2 : Nat) = 2 ∧
    (2 : Nat) = ([([1,0,0],(1:ℚ)),([0,1,0],(1:ℚ))] : List (List ℚ × ℚ)).length ∧
    ([[1,0,0],[0,1,0]] : List (List ℚ)) = [[1,0,0],[0,1,0]] :=
  claim10_response_fields [[1,0,0],[0,1,0]]
    { orthonormal_basis := [([1,0,0],1),([0,1,0],1)]
      original_vectors := [[1,0,0],[0,1,0]]
      is_linearly_independent := true
      dimension := 2
      number_of_vectors := 2
      vector_size := 3
      number_of_output_vectors := 2 }
    (by with_unfolding_all decide)
